import Mathlib

/-!
Shallow embedding of the forward-curve repository (`src/server/`):
the SQLite-backed accuracy store (`accuracy_storage.py`) and the V4 curve
provider (`v4_curve_provider.py`).  Python floats are modelled as rationals,
ISO timestamp / date / horizon strings as `String`, and JSON dictionaries as
structures whose optional fields are `Option`-typed (a missing key and an
explicit `null` value are identified, matching how `dict.get` is used by the
source).  SQLite's `INSERT OR REPLACE` against a `UNIQUE(anchor_date,
horizon)` constraint is modelled as delete-then-append, its transaction as a
pending write list that is either committed as a whole or rolled back, and a
`NOT NULL` column violation as a raised exception.
-/

namespace FC

/-- A row of the `daily_anchors` table (`init_database`, accuracy_storage.py
lines 27-37). -/
structure AnchorRow where
  anchor_date : String
  anchor_timestamp : String
  anchor_price : ℚ
  regime : String
  direction : String
  curve_quality : ℚ
  created_at : String
deriving DecidableEq

/-- A row of the `predictions` table (`init_database`, lines 40-55).
`original_pct` is declared `NOT NULL` by the schema but the value bound by
`store_v4_data` can be Python `None`; it is kept as an `Option` here and the
constraint is enforced by `opValid`. -/
structure PredRow where
  anchor_date : String
  horizon : String
  original_price : ℚ
  original_pct : Option ℚ
  stabilized_price : Option ℚ
  stabilized_pct : Option ℚ
  actual_price : Option ℚ
  actual_pct : Option ℚ
  became_actual_at : Option String
deriving DecidableEq

/-- A row of the `accuracy_metrics` table (`init_database`, lines 58-71). -/
structure MetricRow where
  anchor_date : String
  horizon : String
  original_error_pct : ℚ
  stabilized_error_pct : Option ℚ
  original_accuracy : ℚ
  stabilized_accuracy : Option ℚ
  calculated_at : String
deriving DecidableEq

/-- The durable store: the three tables of the SQLite database. -/
structure DB where
  anchors : List AnchorRow
  predictions : List PredRow
  metrics : List MetricRow
deriving DecidableEq

/-- One `cursor.execute` of an `INSERT OR REPLACE` statement. -/
inductive WriteOp where
  | anchor : AnchorRow → WriteOp
  | pred : PredRow → WriteOp
  | metric : MetricRow → WriteOp
deriving DecidableEq

/-- Does a `predictions` row have the given natural key? -/
def predKeyB (d h : String) (p : PredRow) : Bool :=
  p.anchor_date == d && p.horizon == h

/-- Does an `accuracy_metrics` row have the given natural key? -/
def metricKeyB (d h : String) (m : MetricRow) : Bool :=
  m.anchor_date == d && m.horizon == h

/-- Apply one committed `INSERT OR REPLACE`: the row conflicting on the
`UNIQUE` / `PRIMARY KEY` constraint is deleted and the new row inserted. -/
def applyOp (db : DB) : WriteOp → DB
  | .anchor r =>
      { db with anchors := db.anchors.filter (fun a => !(a.anchor_date == r.anchor_date)) ++ [r] }
  | .pred r =>
      { db with predictions := db.predictions.filter (fun p => !predKeyB r.anchor_date r.horizon p) ++ [r] }
  | .metric r =>
      { db with metrics := db.metrics.filter (fun m => !metricKeyB r.anchor_date r.horizon m) ++ [r] }

/-- Retrieve the `predictions` row for a key (the most recently inserted row
wins, matching the delete-then-insert upsert). -/
def lookupPred (db : DB) (d h : String) : Option PredRow :=
  db.predictions.reverse.find? (predKeyB d h)

/-- Retrieve the `accuracy_metrics` row for a key. -/
def lookupMetric (db : DB) (d h : String) : Option MetricRow :=
  db.metrics.reverse.find? (metricKeyB d h)

/-- Retrieve the `daily_anchors` row for a date. -/
def lookupAnchor (db : DB) (d : String) : Option AnchorRow :=
  db.anchors.reverse.find? (fun a => a.anchor_date == d)

/-- One entry of the `original_predictions` dictionary consumed by
`store_v4_data` (lines 136-140): all four fields are read with `dict.get`
and may be absent. -/
structure OrigPred where
  original_price : Option ℚ
  original_pct : Option ℚ
  stabilized_price : Option ℚ
  stabilized_pct : Option ℚ
deriving DecidableEq

/-- One element of the `curve` array consumed by `store_v4_data`
(lines 126-133). -/
structure StorePoint where
  horizon : Option String
  target_price : Option ℚ
  pct_change : Option ℚ
  is_actual : Option Bool
deriving DecidableEq

/-- One entry of the `forward_curve` dictionary fallback
(`store_v4_data` lines 113-122). -/
structure FwdPoint where
  price : Option ℚ
  pct_change : Option ℚ
  is_actual : Option Bool
deriving DecidableEq

/-- The `curve_data` dictionary passed to `store_v4_data`. -/
structure CurveData where
  anchor_timestamp : Option String
  current_price : Option ℚ
  regime : Option String
  direction : Option String
  curve_quality : Option ℚ
  curve : List StorePoint
  forward_curve : List (String × FwdPoint)
  original_predictions : List (String × OrigPred)
deriving DecidableEq

/-- Python truthiness of an optional float (`if original_price:`):
false for `None` and for `0`. -/
def truthyQ : Option ℚ → Bool
  | some v => v != 0
  | none => false

/-- Python truthiness of an optional string (`if not anchor_timestamp:`):
false for `None` and for the empty string. -/
def truthyS : Option String → Bool
  | some s => !s.isEmpty
  | none => false

/-- Model of `original_preds.get(horizon, {})` over the association-list view
of the dictionary: a missing key yields the empty dictionary, whose own gets
all return `None`. -/
def lookupOrig (origs : List (String × OrigPred)) (h : String) : OrigPred :=
  match origs.find? (fun e => e.1 == h) with
  | some e => e.2
  | none => ⟨none, none, none, none⟩

/-- Model of `anchor_timestamp.split('T')[0]` (line 87): the prefix of the
timestamp before the first `'T'` (the whole string when no `'T'` occurs),
which is exactly the first element Python's `split` returns. -/
def anchorDateOf (ts : String) : String :=
  ⟨ts.data.takeWhile (fun c => c != 'T')⟩

/-- Model of the `forward_curve`-dictionary fallback conversion
(lines 113-122). -/
def convertForwardCurve (fc : List (String × FwdPoint)) : List StorePoint :=
  fc.map (fun e => ⟨some e.1, e.2.price, e.2.pct_change, some (e.2.is_actual.getD false)⟩)

/-- Model of `forward_curve = curve_data.get('curve', [])` followed by the
fallback when that list is empty (lines 110-122). -/
def fcOf (cd : CurveData) : List StorePoint :=
  if cd.curve.isEmpty then convertForwardCurve cd.forward_curve else cd.curve

/-- The `predictions` row bound by the `INSERT OR REPLACE` at lines 144-159. -/
def predRowOf (d h : String) (orig : OrigPred) (tp pc : ℚ) (ia : Bool) (now : String) : PredRow :=
  { anchor_date := d
    horizon := h
    original_price := orig.original_price.getD 0
    original_pct := orig.original_pct
    stabilized_price := orig.stabilized_price
    stabilized_pct := orig.stabilized_pct
    actual_price := if ia then some tp else none
    actual_pct := if ia then some pc else none
    became_actual_at := if ia then some now else none }

/-- The `accuracy_metrics` row bound by the `INSERT OR REPLACE` at
lines 174-187, including the guarded stabilized-error computation
(lines 167-172). -/
def metricRowOf (d h : String) (orig : OrigPred) (tp : ℚ) (now : String) : MetricRow :=
  let op := orig.original_price.getD 0
  let original_error_pct := |tp - op| / tp * 100
  let se : Option ℚ × Option ℚ :=
    if truthyQ orig.stabilized_price then
      let e := |tp - orig.stabilized_price.getD 0| / tp * 100
      (some e, some (100 - e))
    else (none, none)
  { anchor_date := d
    horizon := h
    original_error_pct := original_error_pct
    stabilized_error_pct := se.1
    original_accuracy := 100 - original_error_pct
    stabilized_accuracy := se.2
    calculated_at := now }

/-- Writes attempted for one element of the curve loop of `store_v4_data`
(lines 126-187): skip a point without a truthy horizon, skip a point whose
original prediction is falsy, otherwise upsert the prediction row and, when
the point is realized with a strictly positive target price, also the metric
row. -/
def pointOps (d : String) (origs : List (String × OrigPred)) (now : String)
    (p : StorePoint) : List WriteOp :=
  if !truthyS p.horizon then []
  else
    let h := p.horizon.getD ""
    let tp := p.target_price.getD 0
    let pc := p.pct_change.getD 0
    let ia := p.is_actual.getD false
    let orig := lookupOrig origs h
    if truthyQ orig.original_price then
      if ia && decide (tp > 0) then
        [.pred (predRowOf d h orig tp pc ia now), .metric (metricRowOf d h orig tp now)]
      else
        [.pred (predRowOf d h orig tp pc ia now)]
    else []

/-- The full ordered sequence of `cursor.execute` calls one `store_v4_data`
call attempts: the anchor upsert (lines 94-106) followed by the per-point
writes. -/
def storeOps (cd : CurveData) (now : String) : List WriteOp :=
  let d := anchorDateOf (cd.anchor_timestamp.getD "")
  WriteOp.anchor
    { anchor_date := d
      anchor_timestamp := cd.anchor_timestamp.getD ""
      anchor_price := cd.current_price.getD 0
      regime := cd.regime.getD "UNKNOWN"
      direction := cd.direction.getD "UNKNOWN"
      curve_quality := cd.curve_quality.getD 0
      created_at := now }
    :: (fcOf cd).flatMap (pointOps d cd.original_predictions now)

/-- Whether an `INSERT OR REPLACE` satisfies the schema's `NOT NULL`
constraints; binding Python `None` to `predictions.original_pct` raises. -/
def opValid : WriteOp → Bool
  | .pred r => r.original_pct.isSome
  | _ => true

/-- Execute a sequence of statements inside the open transaction: `none`
models an exception (either the injected fault `failAt` firing at that
statement index, or a constraint violation), `some ops` the successfully
queued writes. -/
def runOps : List WriteOp → Nat → Option Nat → Option (List WriteOp)
  | [], _, _ => some []
  | op :: rest, i, failAt =>
      if failAt == some i || !opValid op then none
      else (runOps rest (i + 1) failAt).map (op :: ·)

/-- Model of `store_v4_data` (lines 77-196) with an injected fault: the
guards on `curve_data` / `anchor_timestamp` return early, the statement
sequence runs inside a transaction, and an exception anywhere triggers
`conn.rollback()` (the durable store is left untouched) while a clean run
ends in `conn.commit()` (all pending writes applied in order). -/
def store_v4_dataF (db : DB) (cd : CurveData) (now : String) (failAt : Option Nat) : DB :=
  if !truthyS cd.anchor_timestamp then db
  else
    match runOps (storeOps cd now) 0 failAt with
    | none => db
    | some pending => pending.foldl applyOp db

/-- Model of `store_v4_data` under fault-free execution. -/
def store_v4_data (db : DB) (cd : CurveData) (now : String) : DB :=
  store_v4_dataF db cd now none

/-- The fixed horizon catalog of the V4 provider (v4_curve_provider.py
line 22). -/
def HORIZONS : List String :=
  ["+1H", "+2H", "+4H", "+6H", "+8H", "+12H", "+18H", "+24H"]

/-- One entry of an upstream `forward_curve` dictionary (both the current
tracking curve and the per-snapshot curves of the `/history` payload); every
field is read with `dict.get` by the provider. -/
structure FCPoint where
  price : Option ℚ
  pct_change : Option ℚ
  lower_90 : Option ℚ
  upper_90 : Option ℚ
  is_actual : Option Bool
deriving DecidableEq

/-- Generic association-list view of a JSON dictionary:
`d.get(k)` / `d.get(k, {})`. -/
def alookup {β : Type} (l : List (String × β)) (h : String) : Option β :=
  (l.find? (fun e => e.1 == h)).map (fun e => e.2)

/-- One element of the `/history` payload consumed by
`_extract_stabilized_from_history` (lines 186-193). -/
structure HistEntry where
  timestamp : Option String
  forward_curve : List (String × FCPoint)
deriving DecidableEq

/-- One value of the `stabilized` dictionary built by
`_extract_stabilized_from_history` (lines 195-205). -/
structure Stab where
  price : Option ℚ
  timestamp : Option String
deriving DecidableEq

/-- Sort key of a history entry: `x.get("timestamp", "")` (line 175). -/
def histKey (e : HistEntry) : String :=
  e.timestamp.getD ""

/-- Model of `sorted(history_data, key=lambda x: x.get("timestamp", ""))`
(line 175): a stable sort by the timestamp key. -/
def sortHistory (hist : List HistEntry) : List HistEntry :=
  hist.insertionSort (fun a b => histKey a ≤ histKey b)

/-- Does a history entry list the horizon as a still-pending prediction
(`if h_data and not h_data.get("is_actual", False)`, line 191)? -/
def isPendingIn (e : HistEntry) (h : String) : Bool :=
  match alookup e.forward_curve h with
  | some d => !(d.is_actual.getD false)
  | none => false

/-- One iteration of the `for entry in sorted_history` loop (lines 186-193):
the accumulator carries `last_prediction` and `last_timestamp`. -/
def stabLoop (h : String) (acc : Option ℚ × Option String) (e : HistEntry) :
    Option ℚ × Option String :=
  match alookup e.forward_curve h with
  | none => acc
  | some d => if d.is_actual.getD false then acc else (d.price, e.timestamp)

/-- The stabilized value `_extract_stabilized_from_history` derives for one
horizon of the catalog (lines 177-205): `none` means the horizon gets no
entry in the returned dictionary. -/
def stabForHorizon (sorted : List HistEntry) (cur : List (String × FCPoint))
    (h : String) : Option Stab :=
  let currentPoint := alookup cur h
  let isNowActual := (currentPoint.bind (fun p => p.is_actual)).getD false
  if isNowActual then
    let r := sorted.foldl (stabLoop h) (none, none)
    match r.1 with
    | some p => some ⟨some p, r.2⟩
    | none => none
  else
    some ⟨currentPoint.bind (fun p => p.price), none⟩

/-- Model of `_extract_stabilized_from_history` (lines 161-207): the early
return yields the empty dictionary when the history payload is `None` or
empty; otherwise the history is sorted oldest-first by timestamp and each
catalog horizon is resolved by `stabForHorizon`. -/
def extract_stabilized_from_history (history : Option (List HistEntry))
    (cur : List (String × FCPoint)) : List (String × Stab) :=
  match history with
  | none => []
  | some hist =>
      if hist.isEmpty then []
      else
        let sorted := sortHistory hist
        HORIZONS.filterMap (fun h => (stabForHorizon sorted cur h).map (fun s => (h, s)))

/-- One entry of the tracking payload's `original_predictions` dictionary as
read by `_transform_response` (lines 121, 135-136). -/
structure OrigIn where
  original_price : Option ℚ
  original_pct : Option ℚ
deriving DecidableEq

/-- The decoded `/prediction/tracking` payload as consumed by
`_transform_response` (lines 101-159). -/
structure TrackingData where
  forward_curve : List (String × FCPoint)
  original_predictions : List (String × OrigIn)
  generated_at : Option String
  anchor_timestamp : Option String
  hours_elapsed : Option ℚ
  current_price : Option ℚ
  direction : Option String
  regime : Option String
  curve_quality : Option ℚ
deriving DecidableEq

/-- The decoded `/prediction/yesterday` payload (line 109). -/
structure YesterdayData where
  forward_curve : List (String × FCPoint)
deriving DecidableEq

/-- One element of the normalized `curve` array built by
`_transform_response` (lines 127-142). -/
structure CurvePointOut where
  horizon : String
  target_price : ℚ
  pct_change : ℚ
  lower_90 : ℚ
  upper_90 : ℚ
  is_actual : Bool
  original_price : Option ℚ
  original_pct : Option ℚ
  yesterday_price : Option ℚ
  stabilized_price : Option ℚ
  stabilized_timestamp : Option String
deriving DecidableEq

/-- The normalized curve returned by `_transform_response` (lines 144-159);
the constant `type` and `model` tags are omitted. -/
structure CurveOut where
  timestamp : String
  generated_at : Option String
  anchor_timestamp : Option String
  hours_elapsed : ℚ
  current_price : ℚ
  anchor_price : ℚ
  direction : String
  regime : String
  curve_quality : ℚ
  curve : List CurvePointOut
  has_yesterday : Bool
  has_history : Bool
deriving DecidableEq

/-- Model of `_transform_response` (lines 101-159): normalization of the
heterogeneous upstream shapes into the internal curve representation, with
missing numeric fields defaulted to neutral values. -/
def transform_response (data : TrackingData) (yesterday : Option YesterdayData)
    (history : Option (List HistEntry)) (now : String) : CurveOut :=
  let fc := data.forward_curve
  let origs := data.original_predictions
  let ycurve := match yesterday with
    | some y => y.forward_curve
    | none => []
  let stab := extract_stabilized_from_history history fc
  let pts := HORIZONS.filterMap (fun h =>
    (alookup fc h).map (fun point =>
      let orig := alookup origs h
      let yest := alookup ycurve h
      let st := alookup stab h
      { horizon := h
        target_price := point.price.getD 0
        pct_change := point.pct_change.getD 0
        lower_90 := point.lower_90.getD 0
        upper_90 := point.upper_90.getD 0
        is_actual := point.is_actual.getD false
        original_price := orig.bind (fun o => o.original_price)
        original_pct := orig.bind (fun o => o.original_pct)
        yesterday_price := yest.bind (fun y => y.price)
        stabilized_price := st.bind (fun s => s.price)
        stabilized_timestamp := st.bind (fun s => s.timestamp) : CurvePointOut }))
  { timestamp := now
    generated_at := data.generated_at
    anchor_timestamp := data.anchor_timestamp
    hours_elapsed := data.hours_elapsed.getD 0
    current_price := data.current_price.getD 0
    anchor_price := data.current_price.getD 0
    direction := data.direction.getD "neutral"
    regime := data.regime.getD "neutral"
    curve_quality := data.curve_quality.getD 0
    curve := pts
    has_yesterday := yesterday.isSome
    has_history := match history with
      | some l => !l.isEmpty
      | none => false }

/-- Outcome of one upstream HTTP round-trip as observed after
`asyncio.gather(..., return_exceptions=True)` (lines 71-73): either an
exception value (timeout, connection error), or a response with a status
code and a body that decodes to `some` payload (`.json()` succeeds) or to
`none` (`.json()` raises). -/
inductive Outcome (α : Type) where
  | exc : Outcome α
  | resp : Nat → Option α → Outcome α
deriving DecidableEq

/-- Handling of one optional call inside `fetch_curve` (lines 82-90):
`if not isinstance(resp, Exception) and resp.status == 200: data = await
resp.json()`.  An exception or a non-200 status leaves the optional payload
as `None`; a 200 response whose body fails to decode raises
(`Except.error`), which the caller's outer `except` turns into a failed
fetch. -/
def decodeOptional {α : Type} (o : Outcome α) : Except Unit (Option α) :=
  match o with
  | .exc => .ok none
  | .resp s b =>
      if s == 200 then
        match b with
        | none => .error ()
        | some x => .ok (some x)
      else .ok none

/-- Model of `fetch_curve` (lines 43-99).  The primary tracking call must be
a non-exception 200 response with a decodable body; the optional calls are
consulted only when they are non-exception 200 responses, but a decode
failure of such a response raises inside the `try` block and is converted by
the outer `except` into a failed fetch (`None`). -/
def fetch_curve (tracking : Outcome TrackingData) (yesterday : Outcome YesterdayData)
    (history : Outcome (List HistEntry)) (now : String) : Option CurveOut :=
  match tracking with
  | .exc => none
  | .resp status body =>
      if status != 200 then none
      else
        match body with
        | none => none
        | some data =>
            match decodeOptional yesterday with
            | .error _ => none
            | .ok yd =>
                match decodeOptional history with
                | .error _ => none
                | .ok hd => some (transform_response data yd hd now)

/-- Failure of the primary tracking call as the fetch boundary treats it:
an exception, a non-success status, or an undecodable body. -/
def primaryFailsB : Outcome TrackingData → Bool
  | .exc => true
  | .resp status body => status != 200 || body.isNone

/-- An optional call whose response has success status but an undecodable
body; this is the only optional-call fault that escapes the per-call
handling. -/
def optionalDecodeFailsB {α : Type} : Outcome α → Bool
  | .exc => false
  | .resp s b => s == 200 && b.isNone

/-- A per-horizon entry of a Ledger snapshot (`_store_curve_snapshot`
lines 277-280). -/
structure SnapPred where
  price : ℚ
  original_price : Option ℚ
deriving DecidableEq

/-- An entry of the in-memory curve history (`_store_curve_snapshot`
lines 266-271). -/
structure Snapshot where
  timestamp : String
  hours_elapsed : ℚ
  anchor_timestamp : Option String
  predictions : List (String × SnapPred)
deriving DecidableEq

/-- The mutable state of a `V4CurveProvider` instance that the poll loop
touches: `_last_curve`, `_curve_history`, `_max_history_size`, and whether
`_broadcast_callback` is set. -/
structure ProviderState where
  last_curve : Option CurveOut
  curve_history : List Snapshot
  max_history_size : Nat
  has_broadcast : Bool
deriving DecidableEq

/-- Build the snapshot `_store_curve_snapshot` records: capture time, elapsed
hours, anchor instant, and the price/original pair of every horizon that is
not yet realized (lines 266-280). -/
def buildSnapshot (curve : CurveOut) (now : String) : Snapshot :=
  { timestamp := now
    hours_elapsed := curve.hours_elapsed
    anchor_timestamp := curve.anchor_timestamp
    predictions := curve.curve.filterMap (fun p =>
      if p.is_actual then none
      else some (p.horizon, ⟨p.target_price, p.original_price⟩)) }

/-- Model of `_store_curve_snapshot` (lines 264-286): append the snapshot,
then trim with `self._curve_history[-self._max_history_size:]` whenever the
length exceeds the capacity.  Note that for capacity `0` the Python slice
`[-0:]` is `[0:]` and keeps the whole list. -/
def store_curve_snapshot (st : ProviderState) (curve : CurveOut) (now : String) :
    ProviderState :=
  let h := st.curve_history ++ [buildSnapshot curve now]
  { st with curve_history :=
      if h.length > st.max_history_size then
        if st.max_history_size = 0 then h
        else h.drop (h.length - st.max_history_size)
      else h }

/-- One point of a prediction-evolution trace (`_add_history_to_curve`
lines 302-306). -/
structure EvoPoint where
  timestamp : String
  hours_elapsed : ℚ
  price : ℚ
deriving DecidableEq

/-- A curve point enriched by `_add_history_to_curve` (lines 294-316). -/
structure EnrichedPoint where
  point : CurvePointOut
  last_stabilized_price : Option ℚ
  evolution_count : Nat
deriving DecidableEq

/-- The broadcast message `_add_history_to_curve` produces (lines 288-319). -/
structure EnrichedCurve where
  base : CurveOut
  curve : List EnrichedPoint
  history_size : Nat
deriving DecidableEq

/-- Model of `_add_history_to_curve` (lines 288-319). -/
def add_history_to_curve (st : ProviderState) (curve : CurveOut) : EnrichedCurve :=
  let pts := curve.curve.map (fun p =>
    let evolution : List EvoPoint := st.curve_history.filterMap (fun s =>
      (alookup s.predictions p.horizon).map (fun e =>
        ⟨s.timestamp, s.hours_elapsed, e.price⟩))
    let lsp : Option ℚ :=
      match evolution.getLast? with
      | some e => if p.is_actual then some e.price else some p.target_price
      | none => none
    ⟨p, lsp, evolution.length⟩)
  ⟨curve, pts, st.curve_history.length⟩

/-- Fold a sequence of (curve, capture-instant) pairs through
`_store_curve_snapshot`. -/
def foldSnapshots (st : ProviderState) (xs : List (CurveOut × String)) : ProviderState :=
  xs.foldl (fun s p => store_curve_snapshot s p.1 p.2) st

/-- One iteration of `_poll_loop` (lines 229-256) up to the cadence sleep,
as a state transition on the provider given the fetch outcome: on a failed
fetch (or when no broadcast callback is registered) nothing happens;
otherwise the curve is recorded as `_last_curve`, a snapshot is appended to
the Ledger, and the history-enriched curve is broadcast. -/
def poll_cycle (st : ProviderState) (fetched : Option CurveOut) (now : String) :
    ProviderState × Option EnrichedCurve :=
  match fetched with
  | none => (st, none)
  | some curve =>
      if st.has_broadcast then
        let st1 := { st with last_curve := some curve }
        let st2 := store_curve_snapshot st1 curve now
        (st2, some (add_history_to_curve st2 curve))
      else (st, none)

/-- The `predictions` row a single statement writes for the given key, if
any; used to trace which statement of a call determines a stored row. -/
def predWrite? (d h : String) : WriteOp → Option PredRow
  | .pred r => if predKeyB d h r then some r else none
  | _ => none

/-- The `accuracy_metrics` row a single statement writes for the given key,
if any. -/
def metricWrite? (d h : String) : WriteOp → Option MetricRow
  | .metric r => if metricKeyB d h r then some r else none
  | _ => none

/-- The last `K` elements of a list (all of it when it is shorter). -/
def lastN {α : Type} (K : Nat) (l : List α) : List α :=
  l.drop (l.length - K)

/-- The natural keys of the stored prediction rows. -/
def predKeys (db : DB) : List (String × String) :=
  db.predictions.map (fun r => (r.anchor_date, r.horizon))

/-- An empty durable store. -/
def emptyDB : DB := ⟨[], [], []⟩

/-- A call whose curve carries one pending `+1H` point and an original
prediction of 50. -/
def cdC1a : CurveData :=
  { anchor_timestamp := some "2025-06-01T13:00:00Z"
    current_price := some 65000
    regime := some "BULL"
    direction := some "UP"
    curve_quality := some 1
    curve := [⟨some "+1H", some 100, some 2, some false⟩]
    forward_curve := []
    original_predictions := [("+1H", ⟨some 50, some 1, none, none⟩)] }

/-- The same call shape as `cdC1a` but supplying a different original
prediction (60) for the same pair. -/
def cdC1b : CurveData :=
  { cdC1a with original_predictions := [("+1H", ⟨some 60, some 1, none, none⟩)] }

/-- A call reporting the `+1H` horizon realized at target price 100. -/
def cdC2act : CurveData :=
  { cdC1a with curve := [⟨some "+1H", some 100, some 2, some true⟩] }

/-- A call reporting the `+1H` horizon pending again. -/
def cdC2pend : CurveData :=
  { cdC1a with curve := [⟨some "+1H", some 100, some 2, some false⟩] }

/-- A call whose `+1H` point is realized with a target price of exactly 0. -/
def cdC5 : CurveData :=
  { cdC1a with curve := [⟨some "+1H", some 0, some 2, some true⟩] }

/-- The spec's example scenario: original prediction 65200, stabilized
prediction 65180, realized actual price 65170. -/
def cdC9ex : CurveData :=
  { cdC1a with
    curve := [⟨some "+1H", some 65170, some 1, some true⟩]
    original_predictions := [("+1H", ⟨some 65200, some 1, some 65180, some 1⟩)] }

/-- A realized point whose stored stabilized price is exactly 0. -/
def cdC9z : CurveData :=
  { cdC1a with
    curve := [⟨some "+1H", some 65170, some 1, some true⟩]
    original_predictions := [("+1H", ⟨some 65200, some 1, some 0, some 0⟩)] }

/-- A call carrying no original prediction for its realized `+1H` point. -/
def cdC10 : CurveData :=
  { cdC1a with
    curve := [⟨some "+1H", some 100, some 2, some true⟩]
    original_predictions := [] }

/-- A pending `+1H` point with price 65180 as it appears in a history
snapshot. -/
def histPendingEntry : HistEntry :=
  ⟨some "2025-06-01T14:00:00Z", [("+1H", ⟨some 65180, some 1, none, none, some false⟩)]⟩

/-- A current curve whose `+1H` horizon is realized at 65170. -/
def curRealized : List (String × FCPoint) :=
  [("+1H", ⟨some 65170, some 1, none, none, some true⟩)]

/-- A current curve whose `+1H` horizon is still pending at price 5. -/
def curPending : List (String × FCPoint) :=
  [("+1H", ⟨some 5, some 1, none, none, some false⟩)]

/-- A minimal normalized curve used to drive the Ledger in concrete runs. -/
def cOut : CurveOut :=
  { timestamp := "t"
    generated_at := none
    anchor_timestamp := some "2025-06-01T13:00:00Z"
    hours_elapsed := 0
    current_price := 65000
    anchor_price := 65000
    direction := "neutral"
    regime := "neutral"
    curve_quality := 0
    curve := [⟨"+1H", 65180, 1, 0, 0, false, some 65200, some 1, none, none, none⟩]
    has_yesterday := false
    has_history := false }

/-- A successfully decoded, contentless tracking payload. -/
def trackOK : Outcome TrackingData :=
  .resp 200 (some ⟨[], [], none, none, none, none, none, none, none⟩)


theorem find?_filter_of_imp {α : Type} (p q : α → Bool) (l : List α)
    (hpq : ∀ a, p a = true → q a = true) :
    (l.filter q).find? p = l.find? p := by
  induction l with
  | nil => rfl
  | cons a t ih =>
      cases hq : q a with
      | true =>
          rw [List.filter_cons, if_pos hq, List.find?_cons, List.find?_cons]
          cases hp : p a
          · exact ih
          · rfl
      | false =>
          have hp : p a = false := by
            cases hpa : p a
            · rfl
            · exact absurd (hpq a hpa) (by simp [hq])
          rw [List.filter_cons, if_neg (by simp [hq]), List.find?_cons, hp, ih]

theorem getLast?_cons_or {α : Type} (a : α) (l : List α) :
    (a :: l).getLast? = l.getLast?.or (some a) := by
  rw [show a :: l = [a] ++ l from rfl, List.getLast?_append]
  rfl

theorem lookupPred_applyOp (db : DB) (op : WriteOp) (d h : String) :
    lookupPred (applyOp db op) d h = (predWrite? d h op).or (lookupPred db d h) := by
  cases op with
  | anchor r => rfl
  | metric r => rfl
  | pred r =>
      show (db.predictions.filter (fun p => !predKeyB r.anchor_date r.horizon p)
          ++ [r]).reverse.find? (predKeyB d h) = _
      rw [List.reverse_append, List.reverse_singleton, List.singleton_append,
        List.find?_cons]
      cases hk : predKeyB d h r with
      | true => simp [predWrite?, hk]
      | false =>
          simp only [predWrite?, hk, Bool.false_eq_true, if_false, Option.none_or]
          show List.find? (predKeyB d h)
              ((db.predictions.filter (fun p => !predKeyB r.anchor_date r.horizon p)).reverse)
            = lookupPred db d h
          unfold lookupPred
          rw [← List.filter_reverse]
          refine find?_filter_of_imp _ _ _ ?_
          intro a ha
          cases hval : predKeyB r.anchor_date r.horizon a
          · rfl
          · exfalso
            have h1 : predKeyB d h r = true := by
              simp only [predKeyB, Bool.and_eq_true, beq_iff_eq] at ha hval ⊢
              exact ⟨hval.1.symm.trans ha.1, hval.2.symm.trans ha.2⟩
            rw [h1] at hk
            exact absurd hk (by simp)

theorem lookupMetric_applyOp (db : DB) (op : WriteOp) (d h : String) :
    lookupMetric (applyOp db op) d h = (metricWrite? d h op).or (lookupMetric db d h) := by
  cases op with
  | anchor r => rfl
  | pred r => rfl
  | metric r =>
      show (db.metrics.filter (fun m => !metricKeyB r.anchor_date r.horizon m)
          ++ [r]).reverse.find? (metricKeyB d h) = _
      rw [List.reverse_append, List.reverse_singleton, List.singleton_append,
        List.find?_cons]
      cases hk : metricKeyB d h r with
      | true => simp [metricWrite?, hk]
      | false =>
          simp only [metricWrite?, hk, Bool.false_eq_true, if_false, Option.none_or]
          show List.find? (metricKeyB d h)
              ((db.metrics.filter (fun m => !metricKeyB r.anchor_date r.horizon m)).reverse)
            = lookupMetric db d h
          unfold lookupMetric
          rw [← List.filter_reverse]
          refine find?_filter_of_imp _ _ _ ?_
          intro a ha
          cases hval : metricKeyB r.anchor_date r.horizon a
          · rfl
          · exfalso
            have h1 : metricKeyB d h r = true := by
              simp only [metricKeyB, Bool.and_eq_true, beq_iff_eq] at ha hval ⊢
              exact ⟨hval.1.symm.trans ha.1, hval.2.symm.trans ha.2⟩
            rw [h1] at hk
            exact absurd hk (by simp)

theorem lookupPred_foldl (ops : List WriteOp) (db : DB) (d h : String) :
    lookupPred (ops.foldl applyOp db) d h =
      ((ops.filterMap (predWrite? d h)).getLast?).or (lookupPred db d h) := by
  induction ops generalizing db with
  | nil => simp
  | cons op t ih =>
      rw [List.foldl_cons, ih, List.filterMap_cons]
      cases hw : predWrite? d h op with
      | none => rw [lookupPred_applyOp, hw, Option.none_or]
      | some r => rw [lookupPred_applyOp, hw, getLast?_cons_or, Option.or_assoc]

theorem lookupMetric_foldl (ops : List WriteOp) (db : DB) (d h : String) :
    lookupMetric (ops.foldl applyOp db) d h =
      ((ops.filterMap (metricWrite? d h)).getLast?).or (lookupMetric db d h) := by
  induction ops generalizing db with
  | nil => simp
  | cons op t ih =>
      rw [List.foldl_cons, ih, List.filterMap_cons]
      cases hw : metricWrite? d h op with
      | none => rw [lookupMetric_applyOp, hw, Option.none_or]
      | some r => rw [lookupMetric_applyOp, hw, getLast?_cons_or, Option.or_assoc]



theorem filterMap_pointOps (d dW h : String) (origs : List (String × OrigPred))
    (now : String) (q : StorePoint) :
    (pointOps dW origs now q).filterMap (predWrite? d h) =
      (if d = dW ∧ q.horizon = some h ∧ h.isEmpty = false
          ∧ truthyQ (lookupOrig origs h).original_price = true then
        [predRowOf dW h (lookupOrig origs h) (q.target_price.getD 0) (q.pct_change.getD 0)
          (q.is_actual.getD false) now]
      else [])
    ∧ (pointOps dW origs now q).filterMap (metricWrite? d h) =
      (if d = dW ∧ q.horizon = some h ∧ h.isEmpty = false
          ∧ truthyQ (lookupOrig origs h).original_price = true
          ∧ q.is_actual.getD false = true ∧ 0 < q.target_price.getD 0 then
        [metricRowOf dW h (lookupOrig origs h) (q.target_price.getD 0) now]
      else []) := by
  cases hq : q.horizon with
  | none =>
      have hops : pointOps dW origs now q = [] := by
        simp [pointOps, hq, truthyS]
      rw [hops]
      constructor
      · split
        · next hc => exact absurd hc.2.1 (by simp)
        · rfl
      · split
        · next hc => exact absurd hc.2.1 (by simp)
        · rfl
  | some s =>
      by_cases hse : s.isEmpty = true
      · have hops : pointOps dW origs now q = [] := by
          simp [pointOps, hq, truthyS, hse]
        rw [hops]
        have hcontra : ∀ {r : Prop}, (some s = some h) → h.isEmpty = false → r := by
          intro r hqh hne
          injection hqh with hs
          rw [hs] at hse
          rw [hse] at hne
          cases hne
        constructor
        · split
          · next hc => exact hcontra hc.2.1 hc.2.2.1
          · rfl
        · split
          · next hc => exact hcontra hc.2.1 hc.2.2.1
          · rfl
      · have hne : s.isEmpty = false := by
          cases hval : s.isEmpty
          · rfl
          · exact absurd hval hse
        by_cases ht : truthyQ (lookupOrig origs s).original_price = true
        · have hops : pointOps dW origs now q =
              if q.is_actual.getD false && decide (q.target_price.getD 0 > 0) then
                [.pred (predRowOf dW s (lookupOrig origs s) (q.target_price.getD 0)
                    (q.pct_change.getD 0) (q.is_actual.getD false) now),
                 .metric (metricRowOf dW s (lookupOrig origs s) (q.target_price.getD 0) now)]
              else
                [.pred (predRowOf dW s (lookupOrig origs s) (q.target_price.getD 0)
                    (q.pct_change.getD 0) (q.is_actual.getD false) now)] := by
            simp [pointOps, hq, truthyS, hne, ht]
          rw [hops]
          by_cases hsh : s = h
          · subst hsh
            by_cases hd : d = dW
            · subst hd
              constructor
              · cases hguard : q.is_actual.getD false && decide (q.target_price.getD 0 > 0) <;>
                  · simp only [hguard, if_true, if_false, Bool.false_eq_true]
                    split
                    · next hc =>
                        simp [predWrite?, metricWrite?, predKeyB, predRowOf]
                    · next hc => exact absurd ⟨by trivial, by trivial, hne, ht⟩ hc
              · cases hguard : q.is_actual.getD false && decide (q.target_price.getD 0 > 0) with
                | true =>
                    rw [Bool.and_eq_true] at hguard
                    obtain ⟨hia, htp⟩ := hguard
                    simp only [if_true]
                    split
                    · next hc =>
                        simp [predWrite?, metricWrite?, metricKeyB, metricRowOf]
                    · next hc =>
                        exact absurd ⟨by trivial, by trivial, hne, ht, hia, of_decide_eq_true htp⟩ hc
                | false =>
                    simp only [hguard, Bool.false_eq_true, if_false]
                    split
                    · next hc =>
                        obtain ⟨-, -, -, -, hia, htp⟩ := hc
                        rw [hia, decide_eq_true htp] at hguard
                        cases hguard
                    · simp [predWrite?, metricWrite?]
            · have hd' : ¬(dW = d) := fun hc => hd hc.symm
              constructor
              · cases hguard : q.is_actual.getD false && decide (q.target_price.getD 0 > 0) <;>
                  · simp only [hguard, if_true, if_false, Bool.false_eq_true]
                    split
                    · next hc => exact absurd hc.1 hd
                    · simp [predWrite?, metricWrite?, predKeyB, metricKeyB, predRowOf,
                        metricRowOf, beq_iff_eq, hd']
              · cases hguard : q.is_actual.getD false && decide (q.target_price.getD 0 > 0) <;>
                  · simp only [hguard, if_true, if_false, Bool.false_eq_true]
                    split
                    · next hc => exact absurd hc.1 hd
                    · simp [predWrite?, metricWrite?, predKeyB, metricKeyB, predRowOf,
                        metricRowOf, beq_iff_eq, hd']
          · constructor
            · cases hguard : q.is_actual.getD false && decide (q.target_price.getD 0 > 0) <;>
                · simp only [hguard, if_true, if_false, Bool.false_eq_true]
                  split
                  · next hc =>
                      injection hc.2.1 with hs
                      exact absurd hs hsh
                  · simp [predWrite?, metricWrite?, predKeyB, metricKeyB, predRowOf,
                      metricRowOf, beq_iff_eq, hsh]
            · cases hguard : q.is_actual.getD false && decide (q.target_price.getD 0 > 0) <;>
                · simp only [hguard, if_true, if_false, Bool.false_eq_true]
                  split
                  · next hc =>
                      injection hc.2.1 with hs
                      exact absurd hs hsh
                  · simp [predWrite?, metricWrite?, predKeyB, metricKeyB, predRowOf,
                      metricRowOf, beq_iff_eq, hsh]
        · have htf : truthyQ (lookupOrig origs s).original_price = false := by
            cases hval : truthyQ (lookupOrig origs s).original_price
            · rfl
            · exact absurd hval ht
          have hops : pointOps dW origs now q = [] := by
            simp [pointOps, hq, truthyS, hne, htf]
          rw [hops]
          have hcontra : ∀ {r : Prop}, (some s = some h) →
              truthyQ (lookupOrig origs h).original_price = true → r := by
            intro r hqh htt
            injection hqh with hs
            rw [← hs] at htt
            rw [htt] at htf
            cases htf
          constructor
          · split
            · next hc => exact hcontra hc.2.1 hc.2.2.2
            · rfl
          · split
            · next hc => exact hcontra hc.2.1 hc.2.2.2.1
            · rfl



theorem runOps_eq_of_valid (ops : List WriteOp) (i : Nat)
    (hvalid : ∀ op ∈ ops, opValid op = true) : runOps ops i none = some ops := by
  induction ops generalizing i with
  | nil => rfl
  | cons op t ih =>
      have h1 : opValid op = true := hvalid op (by simp)
      simp [runOps, h1, ih (i + 1) (fun o ho => hvalid o (by simp [ho]))]

theorem runOps_none_of_invalid (ops : List WriteOp) (i : Nat) (failAt : Option Nat)
    (hbad : ∃ op ∈ ops, opValid op = false) : runOps ops i failAt = none := by
  induction ops generalizing i with
  | nil => obtain ⟨op, hop, -⟩ := hbad; cases hop
  | cons op t ih =>
      cases hv : opValid op with
      | false => simp [runOps, hv]
      | true =>
          obtain ⟨o, ho, hbo⟩ := hbad
          rcases List.mem_cons.mp ho with rfl | ho'
          · rw [hv] at hbo; cases hbo
          · cases hf : (failAt == some i)
            · simp [runOps, hf, hv, ih (i + 1) ⟨o, ho', hbo⟩]
            · simp [runOps, hf]

theorem runOps_fault (ops : List WriteOp) (i k : Nat) (hk : k < ops.length) :
    runOps ops i (some (i + k)) = none := by
  induction ops generalizing i k with
  | nil => simp at hk
  | cons op t ih =>
      cases k with
      | zero => simp [runOps]
      | succ j =>
          cases hv : opValid op with
          | false => simp [runOps, hv]
          | true =>
              have heq : i + (j + 1) = (i + 1) + j := by omega
              have hne : ((some (i + (j + 1)) : Option Nat) == some i) = false := by
                simp only [beq_eq_false_iff_ne, ne_eq, Option.some.injEq]
                omega
              have hrec : runOps t (i + 1) (some (i + (j + 1))) = none := by
                rw [heq]
                exact ih (i + 1) j (by simpa using hk)
              simp [runOps, hv, hne, hrec]

theorem store_eq_db_of_ts (db : DB) (cd : CurveData) (now : String) (failAt : Option Nat)
    (hts : truthyS cd.anchor_timestamp = false) :
    store_v4_dataF db cd now failAt = db := by
  unfold store_v4_dataF
  rw [hts]
  rfl

theorem store_eq_foldl (db : DB) (cd : CurveData) (now : String)
    (hts : truthyS cd.anchor_timestamp = true)
    (hvalid : ∀ op ∈ storeOps cd now, opValid op = true) :
    store_v4_data db cd now = (storeOps cd now).foldl applyOp db := by
  unfold store_v4_data store_v4_dataF
  rw [hts, runOps_eq_of_valid _ 0 hvalid]
  rfl

theorem store_eq_db_of_invalid (db : DB) (cd : CurveData) (now : String) (failAt : Option Nat)
    (hbad : ∃ op ∈ storeOps cd now, opValid op = false) :
    store_v4_dataF db cd now failAt = db := by
  unfold store_v4_dataF
  cases hts : truthyS cd.anchor_timestamp
  · rfl
  · rw [runOps_none_of_invalid _ 0 failAt hbad]
    rfl

theorem filterMap_flatMap {α β γ : Type} (l : List α) (f : α → List β) (g : β → Option γ) :
    (l.flatMap f).filterMap g = l.flatMap (fun a => (f a).filterMap g) := by
  induction l with
  | nil => rfl
  | cons a t ih => rw [List.flatMap_cons, List.flatMap_cons, List.filterMap_append, ih]

theorem flatMap_if_singleton {α β : Type} (l : List α) (c : α → Prop) [DecidablePred c]
    (v : α → β) :
    (l.flatMap (fun a => if c a then [v a] else [])) =
      (l.filter (fun a => decide (c a))).map v := by
  induction l with
  | nil => rfl
  | cons a t ih =>
      rw [List.flatMap_cons, List.filter_cons]
      by_cases hc : c a
      · rw [if_pos hc, if_pos (by simpa using hc), List.map_cons, ih]
        rfl
      · rw [if_neg hc, if_neg (by simpa using hc), ih]
        rfl



theorem lookupPred_store (db : DB) (cd : CurveData) (now d h : String)
    (hts : truthyS cd.anchor_timestamp = true)
    (hvalid : ∀ op ∈ storeOps cd now, opValid op = true) :
    lookupPred (store_v4_data db cd now) d h =
      (if d = anchorDateOf (cd.anchor_timestamp.getD "") ∧ h.isEmpty = false
          ∧ truthyQ (lookupOrig cd.original_predictions h).original_price = true then
        (((fcOf cd).filter (fun q => decide (q.horizon = some h))).getLast?).map
          (fun q => predRowOf (anchorDateOf (cd.anchor_timestamp.getD "")) h
            (lookupOrig cd.original_predictions h) (q.target_price.getD 0)
            (q.pct_change.getD 0) (q.is_actual.getD false) now)
      else none).or (lookupPred db d h) := by
  rw [store_eq_foldl db cd now hts hvalid, lookupPred_foldl]
  congr 1
  unfold storeOps
  rw [List.filterMap_cons]
  simp only [predWrite?]
  rw [filterMap_flatMap]
  have hfn : (fun q => (pointOps (anchorDateOf (cd.anchor_timestamp.getD ""))
        cd.original_predictions now q).filterMap (predWrite? d h)) =
      (fun q => if d = anchorDateOf (cd.anchor_timestamp.getD "") ∧ q.horizon = some h
          ∧ h.isEmpty = false
          ∧ truthyQ (lookupOrig cd.original_predictions h).original_price = true then
        [predRowOf (anchorDateOf (cd.anchor_timestamp.getD "")) h
          (lookupOrig cd.original_predictions h) (q.target_price.getD 0)
          (q.pct_change.getD 0) (q.is_actual.getD false) now]
      else []) :=
    funext (fun q => (filterMap_pointOps d (anchorDateOf (cd.anchor_timestamp.getD "")) h
      cd.original_predictions now q).1)
  rw [hfn, flatMap_if_singleton]
  by_cases hc : d = anchorDateOf (cd.anchor_timestamp.getD "") ∧ h.isEmpty = false
      ∧ truthyQ (lookupOrig cd.original_predictions h).original_price = true
  · rw [if_pos hc]
    obtain ⟨h1, h2, h3⟩ := hc
    have hfe : (fcOf cd).filter (fun q => decide (d = anchorDateOf (cd.anchor_timestamp.getD "")
          ∧ q.horizon = some h ∧ h.isEmpty = false
          ∧ truthyQ (lookupOrig cd.original_predictions h).original_price = true)) =
        (fcOf cd).filter (fun q => decide (q.horizon = some h)) := by
      refine List.filter_congr (fun q hq => ?_)
      rw [decide_eq_decide]
      exact ⟨fun hx => hx.2.1, fun hx => ⟨h1, hx, h2, h3⟩⟩
    rw [hfe, List.getLast?_map]
  · rw [if_neg hc]
    have hfe : (fcOf cd).filter (fun q => decide (d = anchorDateOf (cd.anchor_timestamp.getD "")
          ∧ q.horizon = some h ∧ h.isEmpty = false
          ∧ truthyQ (lookupOrig cd.original_predictions h).original_price = true)) = [] := by
      rw [List.filter_eq_nil_iff]
      intro q hq hdec
      obtain ⟨a, b, c, e⟩ := of_decide_eq_true hdec
      exact hc ⟨a, c, e⟩
    rw [hfe]
    rfl

theorem lookupMetric_store (db : DB) (cd : CurveData) (now d h : String)
    (hts : truthyS cd.anchor_timestamp = true)
    (hvalid : ∀ op ∈ storeOps cd now, opValid op = true) :
    lookupMetric (store_v4_data db cd now) d h =
      (if d = anchorDateOf (cd.anchor_timestamp.getD "") ∧ h.isEmpty = false
          ∧ truthyQ (lookupOrig cd.original_predictions h).original_price = true then
        (((fcOf cd).filter (fun q => decide (q.horizon = some h ∧ q.is_actual.getD false = true
            ∧ 0 < q.target_price.getD 0))).getLast?).map
          (fun q => metricRowOf (anchorDateOf (cd.anchor_timestamp.getD "")) h
            (lookupOrig cd.original_predictions h) (q.target_price.getD 0) now)
      else none).or (lookupMetric db d h) := by
  rw [store_eq_foldl db cd now hts hvalid, lookupMetric_foldl]
  congr 1
  unfold storeOps
  rw [List.filterMap_cons]
  simp only [metricWrite?]
  rw [filterMap_flatMap]
  have hfn : (fun q => (pointOps (anchorDateOf (cd.anchor_timestamp.getD ""))
        cd.original_predictions now q).filterMap (metricWrite? d h)) =
      (fun q => if d = anchorDateOf (cd.anchor_timestamp.getD "") ∧ q.horizon = some h
          ∧ h.isEmpty = false
          ∧ truthyQ (lookupOrig cd.original_predictions h).original_price = true
          ∧ q.is_actual.getD false = true ∧ 0 < q.target_price.getD 0 then
        [metricRowOf (anchorDateOf (cd.anchor_timestamp.getD "")) h
          (lookupOrig cd.original_predictions h) (q.target_price.getD 0) now]
      else []) :=
    funext (fun q => (filterMap_pointOps d (anchorDateOf (cd.anchor_timestamp.getD "")) h
      cd.original_predictions now q).2)
  rw [hfn, flatMap_if_singleton]
  by_cases hc : d = anchorDateOf (cd.anchor_timestamp.getD "") ∧ h.isEmpty = false
      ∧ truthyQ (lookupOrig cd.original_predictions h).original_price = true
  · rw [if_pos hc]
    obtain ⟨h1, h2, h3⟩ := hc
    have hfe : (fcOf cd).filter (fun q => decide (d = anchorDateOf (cd.anchor_timestamp.getD "")
          ∧ q.horizon = some h ∧ h.isEmpty = false
          ∧ truthyQ (lookupOrig cd.original_predictions h).original_price = true
          ∧ q.is_actual.getD false = true ∧ 0 < q.target_price.getD 0)) =
        (fcOf cd).filter (fun q => decide (q.horizon = some h ∧ q.is_actual.getD false = true
          ∧ 0 < q.target_price.getD 0)) := by
      refine List.filter_congr (fun q hq => ?_)
      rw [decide_eq_decide]
      exact ⟨fun hx => ⟨hx.2.1, hx.2.2.2.2⟩, fun hx => ⟨h1, hx.1, h2, h3, hx.2⟩⟩
    rw [hfe, List.getLast?_map]
  · rw [if_neg hc]
    have hfe : (fcOf cd).filter (fun q => decide (d = anchorDateOf (cd.anchor_timestamp.getD "")
          ∧ q.horizon = some h ∧ h.isEmpty = false
          ∧ truthyQ (lookupOrig cd.original_predictions h).original_price = true
          ∧ q.is_actual.getD false = true ∧ 0 < q.target_price.getD 0)) = [] := by
      rw [List.filter_eq_nil_iff]
      intro q hq hdec
      obtain ⟨a, b, c, e, f, g⟩ := of_decide_eq_true hdec
      exact hc ⟨a, c, e⟩
    rw [hfe]
    rfl

theorem predKeys_applyOp (db : DB) (op : WriteOp) (hnd : (predKeys db).Nodup) :
    (predKeys (applyOp db op)).Nodup := by
  cases op with
  | anchor r => exact hnd
  | metric r => exact hnd
  | pred r =>
      show ((db.predictions.filter (fun p => !predKeyB r.anchor_date r.horizon p)
        ++ [r]).map (fun p => (p.anchor_date, p.horizon))).Nodup
      rw [List.map_append]
      refine List.Nodup.append ?_ (by simp) ?_
      · exact List.Nodup.sublist ((List.filter_sublist _).map _) hnd
      · simp only [List.map_cons, List.map_nil]
        rw [List.disjoint_singleton]
        intro hmem
        obtain ⟨p, hp, hkey⟩ := List.mem_map.mp hmem
        have hfp := (List.mem_filter.mp hp).2
        have : predKeyB r.anchor_date r.horizon p = true := by
          simp only [predKeyB, Bool.and_eq_true, beq_iff_eq]
          exact ⟨congrArg Prod.fst hkey, congrArg Prod.snd hkey⟩
        rw [this] at hfp
        cases hfp

theorem predKeys_foldl (ops : List WriteOp) (db : DB) (hnd : (predKeys db).Nodup) :
    (predKeys (ops.foldl applyOp db)).Nodup := by
  induction ops generalizing db with
  | nil => exact hnd
  | cons op t ih => exact ih (applyOp db op) (predKeys_applyOp db op hnd)

theorem predKeys_store (db : DB) (cd : CurveData) (now : String)
    (hnd : (predKeys db).Nodup) : (predKeys (store_v4_data db cd now)).Nodup := by
  unfold store_v4_data store_v4_dataF
  cases hts : truthyS cd.anchor_timestamp
  · exact hnd
  · cases hrun : runOps (storeOps cd now) 0 none
    · exact hnd
    · exact predKeys_foldl _ db hnd



theorem lastN_length {α : Type} (K : Nat) (l : List α) :
    (lastN K l).length = min l.length K := by
  unfold lastN
  rw [List.length_drop]
  omega

theorem store_curve_snapshot_history (st : ProviderState) (c : CurveOut) (t : String)
    (hK : 1 ≤ st.max_history_size) :
    (store_curve_snapshot st c t).curve_history =
      lastN st.max_history_size (st.curve_history ++ [buildSnapshot c t]) := by
  show (if (st.curve_history ++ [buildSnapshot c t]).length > st.max_history_size then
      if st.max_history_size = 0 then st.curve_history ++ [buildSnapshot c t]
      else (st.curve_history ++ [buildSnapshot c t]).drop
        ((st.curve_history ++ [buildSnapshot c t]).length - st.max_history_size)
    else st.curve_history ++ [buildSnapshot c t]) = _
  unfold lastN
  by_cases hlen : (st.curve_history ++ [buildSnapshot c t]).length > st.max_history_size
  · rw [if_pos hlen, if_neg (by omega)]
  · rw [if_neg hlen]
    have h0 : (st.curve_history ++ [buildSnapshot c t]).length - st.max_history_size = 0 := by
      omega
    rw [h0, List.drop_zero]

theorem lastN_append_lastN {α : Type} (K : Nat) (l l2 : List α) :
    lastN K (lastN K l ++ l2) = lastN K (l ++ l2) := by
  unfold lastN
  rcases le_or_lt l.length K with hle | hgt
  · have h0 : l.length - K = 0 := by omega
    rw [h0, List.drop_zero]
  · have hdl : (l.drop (l.length - K)).length = K := by
      rw [List.length_drop]
      omega
    rcases le_or_lt l2.length K with h2 | h2
    · have e1 : (l.drop (l.length - K) ++ l2).length - K = l2.length := by
        rw [List.length_append, hdl]
        omega
      rw [e1, List.drop_append_of_le_length (by omega : l2.length ≤ (l.drop (l.length - K)).length),
        List.drop_drop]
      have e2 : (l ++ l2).length - K = l2.length + (l.length - K) := by
        rw [List.length_append]
        omega
      rw [e2, List.drop_append_of_le_length (by omega : l2.length + (l.length - K) ≤ l.length),
        Nat.add_comm]
    · have e1 : (l.drop (l.length - K) ++ l2).length - K =
          (l.drop (l.length - K)).length + (l2.length - K) := by
        rw [List.length_append, hdl]
        omega
      rw [e1, List.drop_append]
      have e2 : (l ++ l2).length - K = l.length + (l2.length - K) := by
        rw [List.length_append]
        omega
      rw [e2, List.drop_append]

theorem foldSnapshots_max (st : ProviderState) (xs : List (CurveOut × String)) :
    (foldSnapshots st xs).max_history_size = st.max_history_size := by
  induction xs generalizing st with
  | nil => rfl
  | cons x t ih => exact ih _

theorem foldSnapshots_history (xs : List (CurveOut × String)) (st : ProviderState)
    (hK : 1 ≤ st.max_history_size)
    (hinit : st.curve_history.length ≤ st.max_history_size) :
    (foldSnapshots st xs).curve_history =
      lastN st.max_history_size
        (st.curve_history ++ xs.map (fun p => buildSnapshot p.1 p.2)) := by
  induction xs generalizing st with
  | nil =>
      show st.curve_history = _
      rw [List.map_nil, List.append_nil]
      unfold lastN
      have h0 : st.curve_history.length - st.max_history_size = 0 := by omega
      rw [h0, List.drop_zero]
  | cons x t ih =>
      show (foldSnapshots (store_curve_snapshot st x.1 x.2) t).curve_history = _
      have hstep := store_curve_snapshot_history st x.1 x.2 hK
      have hmax : (store_curve_snapshot st x.1 x.2).max_history_size = st.max_history_size := rfl
      have hlen : (store_curve_snapshot st x.1 x.2).curve_history.length
          ≤ (store_curve_snapshot st x.1 x.2).max_history_size := by
        rw [hstep, hmax, lastN_length]
        omega
      rw [ih (store_curve_snapshot st x.1 x.2) (by rw [hmax]; exact hK) hlen, hmax, hstep,
        lastN_append_lastN]
      rw [List.map_cons, List.append_assoc]
      rfl

theorem stabLoop_foldl (h : String) (hist : List HistEntry) (a : Option ℚ × Option String) :
    hist.foldl (stabLoop h) a =
      match (hist.filter (fun e => isPendingIn e h)).getLast? with
      | some e => ((alookup e.forward_curve h).bind (fun d => d.price), e.timestamp)
      | none => a := by
  induction hist using List.reverseRecOn generalizing a with
  | nil => rfl
  | append_singleton l e ih =>
      rw [List.foldl_append, List.filter_append]
      cases hp : isPendingIn e h with
      | true =>
          have hfe : List.filter (fun x => isPendingIn x h) [e] = [e] := by
            simp [hp]
          rw [hfe, List.getLast?_concat]
          unfold isPendingIn at hp
          cases hl : alookup e.forward_curve h with
          | none =>
              simp only [hl] at hp
              cases hp
          | some dd =>
              simp only [hl] at hp
              have hia : dd.is_actual.getD false = false := by simpa using hp
              simp [stabLoop, hl, hia]
      | false =>
          have hfe : List.filter (fun x => isPendingIn x h) [e] = [] := by
            simp [hp]
          rw [hfe, List.append_nil]
          unfold isPendingIn at hp
          have hstep : ∀ acc, stabLoop h acc e = acc := by
            intro acc
            cases hl : alookup e.forward_curve h with
            | none => simp [stabLoop, hl]
            | some dd =>
                simp only [hl] at hp
                have hia : dd.is_actual.getD false = true := by simpa using hp
                simp [stabLoop, hl, hia]
          show stabLoop h (List.foldl (stabLoop h) a l) e = _
          rw [hstep]
          exact ih a

theorem sortHistory_eq_self (hist : List HistEntry)
    (hs : List.Pairwise (fun a b => histKey a ≤ histKey b) hist) :
    sortHistory hist = hist :=
  List.Sorted.insertionSort_eq hs

theorem alookup_filterMap_keys_notmem {β : Type} (keys : List String) (g : String → Option β)
    (h : String) (hmem : h ∉ keys) :
    alookup (keys.filterMap (fun k => (g k).map (fun b => (k, b)))) h = none := by
  induction keys with
  | nil => rfl
  | cons k ks ih =>
      rw [List.filterMap_cons]
      have hk : (k == h) = false := by
        simp only [beq_eq_false_iff_ne, ne_eq]
        exact fun hc => hmem (hc ▸ List.mem_cons_self k ks)
      cases hg : g k with
      | none => exact ih (fun hx => hmem (List.mem_cons_of_mem _ hx))
      | some b =>
          simp only [Option.map_some']
          have htail := ih (fun hx => hmem (List.mem_cons_of_mem _ hx))
          simpa [alookup, List.find?_cons, hk] using htail

theorem alookup_filterMap_keys {β : Type} (keys : List String) (g : String → Option β)
    (h : String) (hnd : keys.Nodup) (hmem : h ∈ keys) :
    alookup (keys.filterMap (fun k => (g k).map (fun b => (k, b)))) h = g h := by
  induction keys with
  | nil => cases hmem
  | cons k ks ih =>
      rw [List.filterMap_cons]
      rcases List.mem_cons.mp hmem with rfl | hmem'
      · cases hg : g h with
        | some b => simp [alookup, List.find?_cons, hg]
        | none =>
            simp only [hg, Option.map_none']
            exact alookup_filterMap_keys_notmem ks g h (List.nodup_cons.mp hnd).1
      · have hk : (k == h) = false := by
          simp only [beq_eq_false_iff_ne, ne_eq]
          exact fun hc => (List.nodup_cons.mp hnd).1 (hc ▸ hmem')
        cases hg : g k with
        | none => exact ih (List.nodup_cons.mp hnd).2 hmem'
        | some b =>
            simp only [Option.map_some']
            have htail := ih (List.nodup_cons.mp hnd).2 hmem'
            simpa [alookup, List.find?_cons, hk] using htail

theorem eq_of_filterMap_nodup {α β : Type} (f : α → Option β) (l : List α) (v : β)
    (hnd : (l.filterMap f).Nodup) (a b : α) (ha : a ∈ l) (hb : b ∈ l)
    (hfa : f a = some v) (hfb : f b = some v) : a = b := by
  induction l with
  | nil => cases ha
  | cons x t ih =>
      rw [List.filterMap_cons] at hnd
      rcases List.mem_cons.mp ha with rfl | haT
      · rcases List.mem_cons.mp hb with rfl | hbT
        · rfl
        · simp only [hfa] at hnd
          exact absurd (List.mem_filterMap.mpr ⟨b, hbT, hfb⟩) (List.nodup_cons.mp hnd).1
      · rcases List.mem_cons.mp hb with rfl | hbT
        · simp only [hfb] at hnd
          exact absurd (List.mem_filterMap.mpr ⟨a, haT, hfa⟩) (List.nodup_cons.mp hnd).1
        · refine ih ?_ haT hbT
          cases hfx : f x
          · simpa only [hfx] using hnd
          · simp only [hfx] at hnd
            exact (List.nodup_cons.mp hnd).2



theorem decodeOptional_error_iff {α : Type} (o : Outcome α) :
    decodeOptional o = .error () ↔ optionalDecodeFailsB o = true := by
  cases o with
  | exc => simp [decodeOptional, optionalDecodeFailsB]
  | resp s b =>
      cases hs : (s == 200) with
      | true => cases b <;> simp [decodeOptional, optionalDecodeFailsB, hs]
      | false => cases b <;> simp [decodeOptional, optionalDecodeFailsB, hs]

/-- C7: for every poll cycle in which the fetch fails (times out or returns
the failure value `None`), the poller's state after the cycle equals its
state before it — the Ledger is not advanced, `_last_curve` (the
`currentCurve` output) is unchanged — and nothing is broadcast to
subscribers. -/
theorem c7_failed_fetch_frame (st : ProviderState) (now : String) :
    poll_cycle st none now = (st, none) := rfl

/-- C6 counterexample: the claim says the fetch fails exactly when the
primary tracking call fails and that a failure of an optional call only
degrades the result.  But when the optional yesterday call answers 200 with
an undecodable body, `fetch_curve` returns the failure value `None` even
though the primary call succeeded — while the same primary outcome with the
optional call erroring outright yields a curve. -/
theorem c6_counterexample :
    fetch_curve trackOK (.resp 200 none) .exc "t" = none
      ∧ (fetch_curve trackOK .exc .exc "t").isSome = true := by
  constructor
  · rfl
  · rfl

/-- C6 (amended): `fetch_curve` is total — every upstream outcome yields
either a normalized curve or the (untagged) failure value `None` — and it
fails exactly when the primary tracking call times out / errors, returns a
non-success status, or fails to decode, or when an optional call returns a
success status with a body that fails to decode; optional-call timeouts,
errors and non-success statuses merely degrade the returned curve. -/
theorem c6_amended_fetch_failure_characterization (t : Outcome TrackingData)
    (y : Outcome YesterdayData) (hi : Outcome (List HistEntry)) (now : String) :
    (fetch_curve t y hi now).isNone =
      (primaryFailsB t || optionalDecodeFailsB y || optionalDecodeFailsB hi) := by
  cases t with
  | exc => rfl
  | resp s b =>
      cases hs : (s != 200) with
      | true => simp [fetch_curve, primaryFailsB, hs]
      | false =>
          cases b with
          | none => simp [fetch_curve, primaryFailsB, hs]
          | some data =>
              have hp : primaryFailsB (.resp s (some data)) = false := by
                simp [primaryFailsB, hs]
              rw [hp]
              simp only [fetch_curve, hs, Bool.false_eq_true, if_false]
              cases hy : decodeOptional y with
              | error e =>
                  cases e
                  have hyf : optionalDecodeFailsB y = true :=
                    (decodeOptional_error_iff y).mp hy
                  simp [hyf]
              | ok yd =>
                  have hyf : optionalDecodeFailsB y = false := by
                    cases hv : optionalDecodeFailsB y
                    · rfl
                    · rw [(decodeOptional_error_iff y).mpr hv] at hy
                      cases hy
                  cases hh : decodeOptional hi with
                  | error e =>
                      cases e
                      have hhf : optionalDecodeFailsB hi = true :=
                        (decodeOptional_error_iff hi).mp hh
                      simp [hyf, hhf]
                  | ok hd =>
                      have hhf : optionalDecodeFailsB hi = false := by
                        cases hv : optionalDecodeFailsB hi
                        · rfl
                        · rw [(decodeOptional_error_iff hi).mpr hv] at hh
                          cases hh
                      simp [hyf, hhf]



/-- C4 counterexample: with configured capacity `K = 0` the Python trim
`self._curve_history[-0:]` keeps the whole list, so after `K + 5 = 5`
appends the Ledger holds 5 snapshots instead of the claimed `K = 0` — the
Ledger exceeds its configured capacity and the 5 oldest are not absent. -/
theorem c4_counterexample :
    (foldSnapshots ⟨none, [], 0, true⟩ (List.replicate 5 (cOut, "t"))).curve_history.length
      = 5 := by
  rfl

/-- C4 (amended): for every capacity `K ≥ 1`, a Ledger that starts empty
never exceeds `K` entries (for any prefix of the append sequence), and
after `K + 5` appends exactly the 5 oldest snapshots are absent: the
history equals the last `K` of the appended snapshots in original order. -/
theorem c4_amended_ledger_capacity (K : Nat) (st : ProviderState)
    (xs : List (CurveOut × String)) (n : Nat) (hK : 1 ≤ K)
    (hmax : st.max_history_size = K) (hinit : st.curve_history = [])
    (hlen : xs.length = K + 5) :
    (foldSnapshots st xs).curve_history =
        (xs.map (fun p => buildSnapshot p.1 p.2)).drop 5
      ∧ (foldSnapshots st (xs.take n)).curve_history.length ≤ K := by
  constructor
  · have h1 := foldSnapshots_history xs st (by rw [hmax]; exact hK)
      (by rw [hinit]; simp)
    rw [h1, hinit, List.nil_append, hmax]
    unfold lastN
    have h5 : (xs.map (fun p => buildSnapshot p.1 p.2)).length - K = 5 := by
      rw [List.length_map, hlen]
      omega
    rw [h5]
  · have h2 := foldSnapshots_history (xs.take n) st (by rw [hmax]; exact hK)
      (by rw [hinit]; simp)
    rw [h2, hinit, List.nil_append, hmax, lastN_length]
    exact Nat.min_le_right _ _

/-- C4 witness: the amended claim at capacity 1 with six appends. -/
theorem c4_witness :
    (foldSnapshots ⟨none, [], 1, true⟩ (List.replicate 6 (cOut, "t"))).curve_history =
        ((List.replicate 6 (cOut, "t")).map (fun p => buildSnapshot p.1 p.2)).drop 5
      ∧ (foldSnapshots ⟨none, [], 1, true⟩
          ((List.replicate 6 (cOut, "t")).take 3)).curve_history.length ≤ 1 :=
  c4_amended_ledger_capacity 1 ⟨none, [], 1, true⟩ (List.replicate 6 (cOut, "t")) 3
    (by decide) rfl rfl (by decide)

/-- C3 counterexample: the claim says a still-pending horizon's stabilized
figure equals its current predicted price, as a function of (current curve,
history contents).  But when the history payload is empty the resolver
returns no stabilized entry at all, even though the `+1H` horizon is pending
with current price 5. -/
theorem c3_counterexample :
    alookup (extract_stabilized_from_history (some []) curPending) "+1H" = none
      ∧ (alookup curPending "+1H").bind (fun p => p.price) = some 5 := by
  constructor
  · rfl
  · rfl

/-- C3 (amended): for every catalog horizon, given a *nonempty* history
ordered oldest-first by capture timestamp: a now-realized horizon's
stabilized figure is the price recorded in the last history snapshot in
which it was still pending (absent when no such snapshot exists or that
snapshot carries no price), and a still-pending horizon's stabilized figure
is its current predicted price; the result is a pure function of the
current curve and the history contents. -/
theorem c3_amended_stabilization (hist : List HistEntry)
    (cur : List (String × FCPoint)) (h : String) (hmem : h ∈ HORIZONS)
    (hsorted : List.Pairwise (fun a b => histKey a ≤ histKey b) hist)
    (hne : hist ≠ []) :
    alookup (extract_stabilized_from_history (some hist) cur) h =
      (if ((alookup cur h).bind (fun p => p.is_actual)).getD false = true then
        ((hist.filter (fun e => isPendingIn e h)).getLast?).bind (fun e =>
          ((alookup e.forward_curve h).bind (fun d => d.price)).map
            (fun p => (⟨some p, e.timestamp⟩ : Stab)))
      else some ⟨(alookup cur h).bind (fun p => p.price), none⟩) := by
  unfold extract_stabilized_from_history
  dsimp only
  rw [if_neg (fun hx => hne (List.isEmpty_iff.mp hx))]
  rw [sortHistory_eq_self hist hsorted]
  rw [alookup_filterMap_keys HORIZONS (stabForHorizon hist cur) h (by decide) hmem]
  unfold stabForHorizon
  rw [stabLoop_foldl]
  by_cases hia : ((alookup cur h).bind (fun p => p.is_actual)).getD false = true
  · rw [if_pos hia]
    simp only [hia, if_true]
    cases hlast : (hist.filter (fun e => isPendingIn e h)).getLast? with
    | none => rfl
    | some e =>
        cases hl : alookup e.forward_curve h with
        | none => simp [hl]
        | some dd =>
            cases hp2 : dd.price with
            | none => simp [hl, hp2]
            | some p => simp [hl, hp2]
  · have hf : ((alookup cur h).bind (fun p => p.is_actual)).getD false = false := by
      cases hv : ((alookup cur h).bind (fun p => p.is_actual)).getD false
      · rfl
      · exact absurd hv hia
    rw [if_neg hia]
    simp only [hf, Bool.false_eq_true, if_false]



/-- C3 witness: the amended claim at a one-snapshot history in which `+1H`
was pending at 65180, with `+1H` now realized. -/
theorem c3_witness :
    alookup (extract_stabilized_from_history (some [histPendingEntry]) curRealized) "+1H" =
      (if ((alookup curRealized "+1H").bind (fun p => p.is_actual)).getD false = true then
        (([histPendingEntry].filter (fun e => isPendingIn e "+1H")).getLast?).bind (fun e =>
          ((alookup e.forward_curve "+1H").bind (fun d => d.price)).map
            (fun p => (⟨some p, e.timestamp⟩ : Stab)))
      else some ⟨(alookup curRealized "+1H").bind (fun p => p.price), none⟩) :=
  c3_amended_stabilization [histPendingEntry] curRealized "+1H" (by decide)
    (by simp) (by simp)

/-- C8: each `store_v4_data` call is atomic against the durable store — if
an exception fires at any statement of the call, every write of the call is
rolled back and the store is exactly as before the call; a fault-free call
commits all its writes together. -/
theorem c8_store_atomicity (db : DB) (cd : CurveData) (now : String) (k : Nat) :
    (k < (storeOps cd now).length → store_v4_dataF db cd now (some k) = db)
    ∧ ((∀ op ∈ storeOps cd now, opValid op = true) →
        store_v4_dataF db cd now none =
          if truthyS cd.anchor_timestamp = true then (storeOps cd now).foldl applyOp db
          else db) := by
  constructor
  · intro hk
    unfold store_v4_dataF
    cases hts : truthyS cd.anchor_timestamp
    · rfl
    · have hrun := runOps_fault (storeOps cd now) 0 k hk
      rw [Nat.zero_add] at hrun
      rw [hrun]
      rfl
  · intro hvalid
    cases hts : truthyS cd.anchor_timestamp
    · rw [if_neg (by simp)]
      exact store_eq_db_of_ts db cd now none hts
    · rw [if_pos rfl]
      show store_v4_data db cd now = _
      exact store_eq_foldl db cd now hts hvalid

/-- C8 witness: atomicity at a concrete call — a fault at the first
statement leaves the empty store empty, and the fault-free call commits the
full write sequence. -/
theorem c8_witness :
    store_v4_dataF emptyDB cdC1a "t" (some 0) = emptyDB
      ∧ store_v4_dataF emptyDB cdC1a "t" none =
          (if truthyS cdC1a.anchor_timestamp = true
            then (storeOps cdC1a "t").foldl applyOp emptyDB else emptyDB) :=
  ⟨(c8_store_atomicity emptyDB cdC1a "t" 0).1 (by decide),
   (c8_store_atomicity emptyDB cdC1a "t" 0).2 (by decide)⟩

/-- C1 counterexample: two `store_v4_data` calls for the same
(anchor date, horizon) pair whose inputs carry different original
predictions: the stored `original_price` changes from 50 to 60, so the
stored original fields are not invariant across calls. -/
theorem c1_counterexample :
    (lookupPred (store_v4_data emptyDB cdC1a "t1") "2025-06-01" "+1H").map
        (fun r => r.original_price) = some 50
      ∧ (lookupPred (store_v4_data (store_v4_data emptyDB cdC1a "t1") cdC1b "t2")
          "2025-06-01" "+1H").map (fun r => r.original_price) = some 60 := by
  constructor
  · rfl
  · rfl

/-- C1 (amended): the stored original fields of a pair always equal the
original-prediction fields supplied by the most recent call that wrote the
pair — hence they are invariant across a sequence of calls exactly when
every call supplies the same original values — and no duplicate row for a
pair is ever created (key-uniqueness of the predictions table is
preserved). -/
theorem c1_amended_originals_follow_input (db : DB) (cd : CurveData) (now h : String)
    (p : StorePoint) (hts : truthyS cd.anchor_timestamp = true)
    (hvalid : ∀ op ∈ storeOps cd now, opValid op = true)
    (hne : h.isEmpty = false)
    (horig : truthyQ (lookupOrig cd.original_predictions h).original_price = true)
    (hlast : ((fcOf cd).filter (fun q => decide (q.horizon = some h))).getLast? = some p)
    (hnd : (predKeys db).Nodup) :
    (lookupPred (store_v4_data db cd now) (anchorDateOf (cd.anchor_timestamp.getD "")) h).map
        (fun r => (r.original_price, r.original_pct))
      = some ((lookupOrig cd.original_predictions h).original_price.getD 0,
              (lookupOrig cd.original_predictions h).original_pct)
    ∧ (predKeys (store_v4_data db cd now)).Nodup := by
  constructor
  · rw [lookupPred_store db cd now _ h hts hvalid, if_pos ⟨rfl, hne, horig⟩, hlast]
    rfl
  · exact predKeys_store db cd now hnd

/-- C1 witness: the amended claim at a concrete call whose curve writes the
pair (2025-06-01, +1H) with original prediction 50. -/
theorem c1_witness :
    (lookupPred (store_v4_data emptyDB cdC1a "t1")
          (anchorDateOf (cdC1a.anchor_timestamp.getD "")) "+1H").map
        (fun r => (r.original_price, r.original_pct))
      = some ((lookupOrig cdC1a.original_predictions "+1H").original_price.getD 0,
              (lookupOrig cdC1a.original_predictions "+1H").original_pct)
    ∧ (predKeys (store_v4_data emptyDB cdC1a "t1")).Nodup :=
  c1_amended_originals_follow_input emptyDB cdC1a "t1" "+1H"
    ⟨some "+1H", some 100, some 2, some false⟩
    (by decide) (by decide) (by decide) (by decide) (by decide) (by decide)

/-- C2 counterexample: the stored actual fields are not monotone.  A call
marking (2025-06-01, +1H) realized stores `actual_price = 100` and
`became_actual_at = "T1"`; a later call reporting the same pair pending
again reverts both to null, and repeating the realized call at a later
instant revises `became_actual_at` from "T1" to "T2". -/
theorem c2_counterexample :
    (lookupPred (store_v4_data emptyDB cdC2act "T1") "2025-06-01" "+1H").map
        (fun r => (r.actual_price, r.became_actual_at))
      = some (some 100, some "T1")
    ∧ (lookupPred (store_v4_data (store_v4_data emptyDB cdC2act "T1") cdC2pend "T2")
        "2025-06-01" "+1H").map (fun r => (r.actual_price, r.became_actual_at))
      = some (none, none)
    ∧ (lookupPred (store_v4_data (store_v4_data emptyDB cdC2act "T1") cdC2act "T2")
        "2025-06-01" "+1H").map (fun r => r.became_actual_at) = some (some "T2") := by
  refine ⟨rfl, rfl, rfl⟩

/-- C2 (amended): the stored actual fields of a pair always mirror the most
recent call that wrote it — set to that call's target price, percent change
and call instant when it marks the horizon realized, and null when it
reports it pending.  They are therefore monotone (null → set, never
reverted or revised) only along call sequences whose realized flag and
realized values are themselves monotone and stable, and `became_actual_at`
is refreshed at every realized-marking call. -/
theorem c2_amended_actuals_follow_input (db : DB) (cd : CurveData) (now h : String)
    (p : StorePoint) (hts : truthyS cd.anchor_timestamp = true)
    (hvalid : ∀ op ∈ storeOps cd now, opValid op = true)
    (hne : h.isEmpty = false)
    (horig : truthyQ (lookupOrig cd.original_predictions h).original_price = true)
    (hlast : ((fcOf cd).filter (fun q => decide (q.horizon = some h))).getLast? = some p) :
    (lookupPred (store_v4_data db cd now) (anchorDateOf (cd.anchor_timestamp.getD "")) h).map
        (fun r => (r.actual_price, r.actual_pct, r.became_actual_at))
      = some (if p.is_actual.getD false then
            (some (p.target_price.getD 0), some (p.pct_change.getD 0), some now)
          else (none, none, none)) := by
  rw [lookupPred_store db cd now _ h hts hvalid, if_pos ⟨rfl, hne, horig⟩, hlast]
  cases hia : p.is_actual.getD false <;> simp [predRowOf, hia]

/-- C2 witness: the amended claim at a concrete realized-marking call. -/
theorem c2_witness :
    (lookupPred (store_v4_data emptyDB cdC2act "T1")
          (anchorDateOf (cdC2act.anchor_timestamp.getD "")) "+1H").map
        (fun r => (r.actual_price, r.actual_pct, r.became_actual_at))
      = some (if (⟨some "+1H", some 100, some 2, some true⟩ : StorePoint).is_actual.getD false
          then (some ((⟨some "+1H", some 100, some 2, some true⟩ : StorePoint).target_price.getD 0),
            some ((⟨some "+1H", some 100, some 2, some true⟩ : StorePoint).pct_change.getD 0),
            some "T1")
          else (none, none, none)) :=
  c2_amended_actuals_follow_input emptyDB cdC2act "T1" "+1H"
    ⟨some "+1H", some 100, some 2, some true⟩
    (by decide) (by decide) (by decide) (by decide) (by decide)



/-- C9 counterexample: a realized point whose stored stabilized price is
exactly 0.  A stabilized value existed (`some 0`), yet the metric row's
stabilized error is null rather than being computed the same way as the
original error, because `if stabilized_price:` treats 0 as absent. -/
theorem c9_counterexample :
    (lookupMetric (store_v4_data emptyDB cdC9z "t") "2025-06-01" "+1H").map
        (fun r => r.stabilized_error_pct) = some none
      ∧ (lookupOrig cdC9z.original_predictions "+1H").stabilized_price = some 0 := by
  constructor
  · rfl
  · rfl

/-- C9 (amended): for every realized curve point with a stored original
prediction and a strictly positive actual price, the metric row equals
`original error percent = |actual − original| / actual × 100` with
`accuracy = 100 − error`, and the stabilized error/accuracy are computed
the same way from the stabilized price except that they are null when no
stabilized value existed *or the stored stabilized price is 0* (Python
falsiness).  In the spec's example (original 65200, stabilized 65180,
actual 65170) the original error is |65170−65200|/65170·100 ≈ 0.046% and
the stabilized error is |65170−65180|/65170·100 ≈ 0.015%. -/
theorem c9_amended_metric_formula (db : DB) (cd : CurveData) (now h : String)
    (p : StorePoint) (hts : truthyS cd.anchor_timestamp = true)
    (hvalid : ∀ op ∈ storeOps cd now, opValid op = true)
    (hne : h.isEmpty = false)
    (horig : truthyQ (lookupOrig cd.original_predictions h).original_price = true)
    (hlastm : ((fcOf cd).filter (fun q => decide (q.horizon = some h
        ∧ q.is_actual.getD false = true ∧ 0 < q.target_price.getD 0))).getLast? = some p) :
    lookupMetric (store_v4_data db cd now) (anchorDateOf (cd.anchor_timestamp.getD "")) h
      = some { anchor_date := anchorDateOf (cd.anchor_timestamp.getD "")
               horizon := h
               original_error_pct := |p.target_price.getD 0
                   - (lookupOrig cd.original_predictions h).original_price.getD 0|
                 / p.target_price.getD 0 * 100
               stabilized_error_pct :=
                 if truthyQ (lookupOrig cd.original_predictions h).stabilized_price then
                   some (|p.target_price.getD 0
                       - (lookupOrig cd.original_predictions h).stabilized_price.getD 0|
                     / p.target_price.getD 0 * 100)
                 else none
               original_accuracy := 100 - |p.target_price.getD 0
                   - (lookupOrig cd.original_predictions h).original_price.getD 0|
                 / p.target_price.getD 0 * 100
               stabilized_accuracy :=
                 if truthyQ (lookupOrig cd.original_predictions h).stabilized_price then
                   some (100 - |p.target_price.getD 0
                       - (lookupOrig cd.original_predictions h).stabilized_price.getD 0|
                     / p.target_price.getD 0 * 100)
                 else none
               calculated_at := now }
    ∧ (lookupMetric (store_v4_data emptyDB cdC9ex "t") "2025-06-01" "+1H").map
          (fun r => (r.original_error_pct, r.stabilized_error_pct))
        = some (|(65170:ℚ) - 65200| / 65170 * 100, some (|(65170:ℚ) - 65180| / 65170 * 100))
    ∧ abs (|(65170:ℚ) - 65200| / 65170 * 100 - 46/1000) < 1/1000
    ∧ abs (|(65170:ℚ) - 65180| / 65170 * 100 - 15/1000) < 1/1000 := by
  refine ⟨?_, ?_, ?_, ?_⟩
  · rw [lookupMetric_store db cd now _ h hts hvalid, if_pos ⟨rfl, hne, horig⟩, hlastm]
    by_cases hstab : truthyQ (lookupOrig cd.original_predictions h).stabilized_price = true <;>
      simp [metricRowOf, hstab]
  · rfl
  · have e1 : |(65170:ℚ) - 65200| = 30 := by
      rw [abs_sub_comm, abs_of_nonneg (by norm_num : (0:ℚ) ≤ 65200 - 65170)]
      norm_num
    rw [e1, abs_lt]
    constructor <;> norm_num
  · have e2 : |(65170:ℚ) - 65180| = 10 := by
      rw [abs_sub_comm, abs_of_nonneg (by norm_num : (0:ℚ) ≤ 65180 - 65170)]
      norm_num
    rw [e2, abs_lt]
    constructor <;> norm_num

/-- C9 witness: the amended claim at the spec's example scenario. -/
theorem c9_witness :
    lookupMetric (store_v4_data emptyDB cdC9ex "t")
        (anchorDateOf (cdC9ex.anchor_timestamp.getD "")) "+1H"
      = some { anchor_date := anchorDateOf (cdC9ex.anchor_timestamp.getD "")
               horizon := "+1H"
               original_error_pct := |(⟨some "+1H", some 65170, some 1, some true⟩
                     : StorePoint).target_price.getD 0
                   - (lookupOrig cdC9ex.original_predictions "+1H").original_price.getD 0|
                 / (⟨some "+1H", some 65170, some 1, some true⟩
                     : StorePoint).target_price.getD 0 * 100
               stabilized_error_pct :=
                 if truthyQ (lookupOrig cdC9ex.original_predictions "+1H").stabilized_price then
                   some (|(⟨some "+1H", some 65170, some 1, some true⟩
                         : StorePoint).target_price.getD 0
                       - (lookupOrig cdC9ex.original_predictions "+1H").stabilized_price.getD 0|
                     / (⟨some "+1H", some 65170, some 1, some true⟩
                         : StorePoint).target_price.getD 0 * 100)
                 else none
               original_accuracy := 100 - |(⟨some "+1H", some 65170, some 1, some true⟩
                     : StorePoint).target_price.getD 0
                   - (lookupOrig cdC9ex.original_predictions "+1H").original_price.getD 0|
                 / (⟨some "+1H", some 65170, some 1, some true⟩
                     : StorePoint).target_price.getD 0 * 100
               stabilized_accuracy :=
                 if truthyQ (lookupOrig cdC9ex.original_predictions "+1H").stabilized_price then
                   some (100 - |(⟨some "+1H", some 65170, some 1, some true⟩
                         : StorePoint).target_price.getD 0
                       - (lookupOrig cdC9ex.original_predictions "+1H").stabilized_price.getD 0|
                     / (⟨some "+1H", some 65170, some 1, some true⟩
                         : StorePoint).target_price.getD 0 * 100)
                 else none
               calculated_at := "t" }
    ∧ (lookupMetric (store_v4_data emptyDB cdC9ex "t") "2025-06-01" "+1H").map
          (fun r => (r.original_error_pct, r.stabilized_error_pct))
        = some (|(65170:ℚ) - 65200| / 65170 * 100, some (|(65170:ℚ) - 65180| / 65170 * 100))
    ∧ abs (|(65170:ℚ) - 65200| / 65170 * 100 - 46/1000) < 1/1000
    ∧ abs (|(65170:ℚ) - 65180| / 65170 * 100 - 15/1000) < 1/1000 :=
  c9_amended_metric_formula emptyDB cdC9ex "t" "+1H"
    ⟨some "+1H", some 65170, some 1, some true⟩
    (by decide) (by decide) (by decide) (by decide) (by decide)

/-- C5: a realized curve point whose target price is exactly 0 produces no
accuracy-metric row for its (anchor date, horizon) pair — the metric
computation, and with it the division by the target price, is only reached
under the guard `target_price > 0`. -/
theorem c5_zero_price_guard (db : DB) (cd : CurveData) (now h d : String) (p : StorePoint)
    (hmem : p ∈ fcOf cd) (hh : p.horizon = some h)
    (hia : p.is_actual.getD false = true) (htp : p.target_price.getD 0 = 0)
    (hnd : ((fcOf cd).filterMap (fun q => q.horizon)).Nodup) :
    lookupMetric (store_v4_data db cd now) d h = lookupMetric db d h := by
  by_cases hts : truthyS cd.anchor_timestamp = true
  · by_cases hvalid : ∀ op ∈ storeOps cd now, opValid op = true
    · rw [lookupMetric_store db cd now d h hts hvalid]
      have hfe : (fcOf cd).filter (fun q => decide (q.horizon = some h
          ∧ q.is_actual.getD false = true ∧ 0 < q.target_price.getD 0)) = [] := by
        rw [List.filter_eq_nil_iff]
        intro q hq hdec
        obtain ⟨hq1, hq2, hq3⟩ := of_decide_eq_true hdec
        have hqp : q = p := eq_of_filterMap_nodup (fun q => q.horizon) (fcOf cd) h hnd
          q p hq hmem (by exact hq1) (by exact hh)
        rw [hqp, htp] at hq3
        exact lt_irrefl 0 hq3
      rw [hfe]
      split
      · rfl
      · rfl
    · have hbad : ∃ op ∈ storeOps cd now, opValid op = false := by
        push_neg at hvalid
        obtain ⟨op, hop, hb⟩ := hvalid
        exact ⟨op, hop, by
          cases hv : opValid op
          · rfl
          · exact absurd hv hb⟩
      rw [show store_v4_data db cd now = db from
        store_eq_db_of_invalid db cd now none hbad]
  · have hf : truthyS cd.anchor_timestamp = false := by
      cases hv : truthyS cd.anchor_timestamp
      · rfl
      · exact absurd hv hts
    rw [show store_v4_data db cd now = db from store_eq_db_of_ts db cd now none hf]

/-- C5 witness: a realized `+1H` point with target price 0 leaves the metric
table unchanged. -/
theorem c5_witness :
    lookupMetric (store_v4_data emptyDB cdC5 "t") "2025-06-01" "+1H" =
      lookupMetric emptyDB "2025-06-01" "+1H" :=
  c5_zero_price_guard emptyDB cdC5 "t" "+1H" "2025-06-01"
    ⟨some "+1H", some 0, some 2, some true⟩
    (by decide) (by decide) (by decide) (by decide) (by decide)

/-- C10: a curve point whose original prediction is missing, null, or 0
(any falsy value) is skipped entirely by `store_v4_data`: no prediction row
and no metric row is written for its (anchor date, horizon) pair, even when
the point is realized with a valid nonzero actual price. -/
theorem c10_falsy_original_skips_point (db : DB) (cd : CurveData) (now h d : String)
    (hfalsy : truthyQ (lookupOrig cd.original_predictions h).original_price = false) :
    lookupPred (store_v4_data db cd now) d h = lookupPred db d h
    ∧ lookupMetric (store_v4_data db cd now) d h = lookupMetric db d h := by
  by_cases hts : truthyS cd.anchor_timestamp = true
  · by_cases hvalid : ∀ op ∈ storeOps cd now, opValid op = true
    · constructor
      · rw [lookupPred_store db cd now d h hts hvalid,
          if_neg (by rintro ⟨-, -, htq⟩; rw [htq] at hfalsy; cases hfalsy)]
        rfl
      · rw [lookupMetric_store db cd now d h hts hvalid,
          if_neg (by rintro ⟨-, -, htq⟩; rw [htq] at hfalsy; cases hfalsy)]
        rfl
    · have hbad : ∃ op ∈ storeOps cd now, opValid op = false := by
        push_neg at hvalid
        obtain ⟨op, hop, hb⟩ := hvalid
        exact ⟨op, hop, by
          cases hv : opValid op
          · rfl
          · exact absurd hv hb⟩
      rw [show store_v4_data db cd now = db from
        store_eq_db_of_invalid db cd now none hbad]
      exact ⟨rfl, rfl⟩
  · have hf : truthyS cd.anchor_timestamp = false := by
      cases hv : truthyS cd.anchor_timestamp
      · rfl
      · exact absurd hv hts
    rw [show store_v4_data db cd now = db from store_eq_db_of_ts db cd now none hf]
    exact ⟨rfl, rfl⟩

/-- C10 witness: a realized `+1H` point with no original prediction writes
neither a prediction row nor a metric row. -/
theorem c10_witness :
    lookupPred (store_v4_data emptyDB cdC10 "t") "2025-06-01" "+1H" =
      lookupPred emptyDB "2025-06-01" "+1H"
    ∧ lookupMetric (store_v4_data emptyDB cdC10 "t") "2025-06-01" "+1H" =
      lookupMetric emptyDB "2025-06-01" "+1H" :=
  c10_falsy_original_skips_point emptyDB cdC10 "t" "+1H" "2025-06-01" (by decide)


end FC
